import Mathlib

/-!
Verification of the LC-3 virtual machine interpreter.

This file gives a shallow embedding of the interpreter's core
(src/utils.rs, src/hardware.rs, src/trap_code.rs, src/vm.rs) and proves
properties of it.  Machine words (u16) are modelled as `Nat` kept below
2 ^ 16 by taking `% 65536` exactly where the source wraps; fallible
operations return `Except VMError`; host input is an explicit list of
bytes and host output an explicit event trace.  Operations that mutate
state through `&mut self` return the updated state alongside the result,
so that mutations performed before an error are preserved, as in the
source.
-/

set_option maxHeartbeats 1000000

/-- Error taxonomy (src/error.rs), restricted to the constructor shapes
used by the modules embedded here.  The string payloads carry the
diagnostic messages built at the error sites. -/
inductive VMError where
  | Arithmetic (msg : String)
  | Conversion (msg : String)
  | InvalidIndex (index : Nat)
  | STDINRead (msg : String)
  | STDOUTWrite (msg : String)
  | STDOUTFlush (msg : String)
  | TermiosCreation (msg : String)
  | TermiosSetup (msg : String)
  | OpenFile (msg : String)
  | NoMoreBytes (msg : String)
  deriving DecidableEq

/-- Rust `u16` left shift.  Rust defines `x << k` on `u16` only for
`k < 16`; the compiled (non-overflow-checked) arithmetic masks the shift
amount to `k % 16` (`wrapping_shl`), which is what an overflowing shift
amount produces at runtime in release builds (under debug assertions it
aborts instead).  Note this is NOT `(x * 2 ^ k) % 65536`: for `k = 16`
the masked shift gives `x`, not `0`. -/
def shlU16 (x k : Nat) : Nat := (x <<< (k % 16)) % 65536

/-- Rust `u16` right shift, with the shift amount masked as in `shlU16`. -/
def shrU16 (x k : Nat) : Nat := x >>> (k % 16)

/-- Rust `u16::wrapping_add`. -/
def wadd (a b : Nat) : Nat := (a + b) % 65536

/-- Rust `usize::checked_sub`. -/
def checkedSub (a b : Nat) : Option Nat := if b ≤ a then some (a - b) else none

/-- Translation of `sign_extend` (src/utils.rs lines 19-32): extends a
number represented in `bit_count` bits into 16 bits, taking the sign of
the original number into account. -/
def sign_extend (x : Nat) (bit_count : Nat) : Except VMError Nat :=
  match checkedSub bit_count 1 with
  | none => .error (.Arithmetic "Underflow when substracting")
  | some bitcount_sub =>
    let msb := shrU16 x bitcount_sub
    if msb ≠ 0 then .ok (x ||| shlU16 65535 bit_count) else .ok x

/-- Registers of the machine (src/hardware.rs lines 80-92). -/
inductive Register where
  | R0 | R1 | R2 | R3 | R4 | R5 | R6 | R7 | PC | Cond
  deriving DecidableEq

/-- Register.index (src/hardware.rs lines 95-108): position of the
register inside the ten-element register array. -/
def Register.index : Register → Nat
  | .R0 => 0
  | .R1 => 1
  | .R2 => 2
  | .R3 => 3
  | .R4 => 4
  | .R5 => 5
  | .R6 => 6
  | .R7 => 7
  | .PC => 8
  | .Cond => 9

/-- Register.from_u16 (src/hardware.rs lines 110-126). -/
def Register.from_u16 (n : Nat) : Except VMError Register :=
  if n = 0 then .ok .R0
  else if n = 1 then .ok .R1
  else if n = 2 then .ok .R2
  else if n = 3 then .ok .R3
  else if n = 4 then .ok .R4
  else if n = 5 then .ok .R5
  else if n = 6 then .ok .R6
  else if n = 7 then .ok .R7
  else if n = 8 then .ok .PC
  else if n = 9 then .ok .Cond
  else .error (.Conversion "Invalid u16 for Register conversion")

/-- Condition flags (src/hardware.rs lines 208-212). -/
inductive CondFlag where
  | Pos | Zro | Neg
  deriving DecidableEq

/-- CondFlag.value (src/hardware.rs lines 214-222). -/
def CondFlag.value : CondFlag → Nat
  | .Pos => 1 <<< 0
  | .Zro => 1 <<< 1
  | .Neg => 1 <<< 2

/-- Opcodes (src/hardware.rs lines 162-177). -/
inductive OpCode where
  | Br | Add | Ld | St | Jsr | And | Ldr | Str | Not | Ldi | Sti | Jmp | Lea | Trap
  deriving DecidableEq

/-- OpCode try_from (src/hardware.rs lines 179-204).  The nibbles 0b1000
(RTI) and 0b1101 (reserved) fall through to the `Conversion` error whose
message interpolates the offending value. -/
def OpCode.try_from (value : Nat) : Except VMError OpCode :=
  if value = 0 then .ok .Br
  else if value = 1 then .ok .Add
  else if value = 2 then .ok .Ld
  else if value = 3 then .ok .St
  else if value = 4 then .ok .Jsr
  else if value = 5 then .ok .And
  else if value = 6 then .ok .Ldr
  else if value = 7 then .ok .Str
  else if value = 9 then .ok .Not
  else if value = 10 then .ok .Ldi
  else if value = 11 then .ok .Sti
  else if value = 12 then .ok .Jmp
  else if value = 14 then .ok .Lea
  else if value = 15 then .ok .Trap
  else .error (.Conversion ("Invalid u16 (" ++ toString value ++ ") for OpCode conversion"))

/-- Trap codes (src/trap_code.rs lines 3-10). -/
inductive TrapCode where
  | GetC | Out | Puts | In | PutsP | Halt
  deriving DecidableEq

/-- TrapCode try_from (src/trap_code.rs lines 12-28). -/
def TrapCode.try_from (value : Nat) : Except VMError TrapCode :=
  if value = 0x20 then .ok .GetC
  else if value = 0x21 then .ok .Out
  else if value = 0x22 then .ok .Puts
  else if value = 0x23 then .ok .In
  else if value = 0x24 then .ok .PutsP
  else if value = 0x25 then .ok .Halt
  else .error (.Conversion "Invalid u16 for TrapCode conversion")

/-- Memory-mapped registers (src/hardware.rs lines 226-238). -/
inductive MemoryRegister where
  | KeyboardStatus | KeyboardData

/-- MemoryRegister.address (src/hardware.rs lines 231-238). -/
def MemoryRegister.address : MemoryRegister → Nat
  | .KeyboardStatus => 0xFE00
  | .KeyboardData => 0xFE02

/-- MEMORY_MAX (src/hardware.rs line 8). -/
def MEMORY_MAX : Nat := 65536

/-- Pointwise update of the memory array. -/
def memUpdate (m : Nat → Nat) (a v : Nat) : Nat → Nat :=
  fun b => if b = a then v else m b

/-- Memory::write (src/hardware.rs lines 35-42): stores the supplied word
verbatim when the index is inside the array, and fails with
`InvalidIndex` otherwise. -/
def Memory.write (m : Nat → Nat) (mem_address : Nat) (new_val : Nat) :
    Except VMError (Nat → Nat) :=
  if mem_address < MEMORY_MAX then .ok (memUpdate m mem_address new_val)
  else .error (.InvalidIndex mem_address)

/-- getchar (src/utils.rs lines 46-52): reads exactly one byte from the
host input; `read_exact` fails when no byte is available.  The message
models the io error text rendered by the host. -/
def getchar (input : List Nat) : Except VMError (Nat × List Nat) :=
  match input with
  | [] => .error (.STDINRead "failed to fill whole buffer")
  | b :: rest => .ok (b, rest)

/-- Memory::read (src/hardware.rs lines 58-72).  A read of the
KeyboardStatus cell first writes 0x8000 (`1 << 15`) into it, then reads
one byte from the host input and stores it into KeyboardData, and only
then returns the stored cell.  The updated memory and the remaining
input are returned alongside the result, also on the error paths,
mirroring the `&mut self` mutations that persist when `?` propagates an
error. -/
def Memory.read (m : Nat → Nat) (addr : Nat) (input : List Nat) :
    (Except VMError Nat) × (Nat → Nat) × List Nat :=
  if addr = MemoryRegister.address .KeyboardStatus then
    match Memory.write m (MemoryRegister.address .KeyboardStatus) (1 <<< 15) with
    | .error e => (.error e, m, input)
    | .ok m1 =>
      match getchar input with
      | .error e => (.error e, m1, input)
      | .ok (c, rest) =>
        match Memory.write m1 (MemoryRegister.address .KeyboardData) c with
        | .error e => (.error e, m1, rest)
        | .ok m2 =>
          (if addr < MEMORY_MAX then .ok (m2 addr) else .error (.InvalidIndex addr), m2, rest)
  else
    (if addr < MEMORY_MAX then .ok (m addr) else .error (.InvalidIndex addr), m, input)

/-- Host-output events: bytes written and flushes, in order. -/
inductive OutEvent where
  | byte (b : Nat)
  | flush
  deriving DecidableEq

/-- The state owned by the interpreter: the VM struct (registers, memory,
running flag; src/vm.rs lines 17-21) together with the host input stream,
the host output trace, and a counter of `Memory::read` invocations used
to state how many memory cells an operation reads. -/
structure Machine where
  regs : Register → Nat
  mem : Nat → Nat
  running : Bool
  input : List Nat
  output : List OutEvent
  reads : Nat

/-- Writing a register stores through its array index
(src/hardware.rs lines 153-158). -/
def Machine.setReg (mc : Machine) (r : Register) (v : Nat) : Machine :=
  { mc with regs := fun q => if q.index = r.index then v else mc.regs q }

/-- Reading memory through the VM: threads the machine's memory and host
input through `Memory.read` and counts the read. -/
def Machine.memRead (mc : Machine) (addr : Nat) : (Except VMError Nat) × Machine :=
  match Memory.read mc.mem addr mc.input with
  | (r, m2, inp2) => (r, { mc with mem := m2, input := inp2, reads := mc.reads + 1 })

/-- Writing memory through the VM. -/
def Machine.memWrite (mc : Machine) (addr v : Nat) : (Except VMError Unit) × Machine :=
  match Memory.write mc.mem addr v with
  | .ok m2 => (.ok (), { mc with mem := m2 })
  | .error e => (.error e, mc)

/-- stdout_write (src/utils.rs lines 71-76): appends the buffer to the
host output.  The modelled host sink never fails, like the in-memory
writer used by the repository's tests. -/
def stdout_write (buffer : List Nat) (mc : Machine) : Machine :=
  { mc with output := mc.output ++ buffer.map OutEvent.byte }

/-- stdout_flush (src/utils.rs lines 59-64): records a flush event. -/
def stdout_flush (mc : Machine) : Machine :=
  { mc with output := mc.output ++ [OutEvent.flush] }

/-- Bit masks (src/vm.rs lines 9-15) and the null word (line 7). -/
def NULL : Nat := 0x0000

def ONE_BIT_MASK : Nat := 0b1

def THREE_BIT_MASK : Nat := 0b111

def FIVE_BIT_MASK : Nat := 0b11111

def SIX_BIT_MASK : Nat := 0b111111

def EIGHT_BIT_MASK : Nat := 0b11111111

def NINE_BIT_MASK : Nat := 0b111111111

def ELEVEN_BIT_MASK : Nat := 0b11111111111

/-- VM::update_flags (src/vm.rs lines 120-128). -/
def VM.update_flags (mc : Machine) (r : Register) : Machine :=
  if mc.regs r = 0 then mc.setReg .Cond CondFlag.Zro.value
  else if mc.regs r >>> 15 = 1 then mc.setReg .Cond CondFlag.Neg.value
  else mc.setReg .Cond CondFlag.Pos.value

/-- Rust `u8::try_from` on a u16 value (the `try_into` conversions in
src/vm.rs), failing with `Conversion` carrying the rendered
`TryFromIntError` when the value does not fit in a byte. -/
def u8TryFrom (v : Nat) : Except VMError Nat :=
  if v ≤ 255 then .ok v
  else .error (.Conversion "out of range integral type conversion attempted")

/-- VM::add (src/vm.rs lines 140-162). -/
def VM.add (mc : Machine) (instr : Nat) : (Except VMError Unit) × Machine :=
  match Register.from_u16 ((instr >>> 9) &&& THREE_BIT_MASK) with
  | .error e => (.error e, mc)
  | .ok dr =>
    match Register.from_u16 ((instr >>> 6) &&& THREE_BIT_MASK) with
    | .error e => (.error e, mc)
    | .ok sr1 =>
      let imm_flag := (instr >>> 5) &&& ONE_BIT_MASK
      if imm_flag = 1 then
        match sign_extend (instr &&& FIVE_BIT_MASK) 5 with
        | .error e => (.error e, mc)
        | .ok imm5 =>
          let mc2 := mc.setReg dr (wadd (mc.regs sr1) imm5)
          (.ok (), VM.update_flags mc2 dr)
      else
        match Register.from_u16 (instr &&& THREE_BIT_MASK) with
        | .error e => (.error e, mc)
        | .ok sr2 =>
          let mc2 := mc.setReg dr (wadd (mc.regs sr1) (mc.regs sr2))
          (.ok (), VM.update_flags mc2 dr)

/-- VM::not (src/vm.rs lines 169-176); `!` on u16 flips the 16 bits. -/
def VM.not (mc : Machine) (instr : Nat) : (Except VMError Unit) × Machine :=
  match Register.from_u16 ((instr >>> 9) &&& THREE_BIT_MASK) with
  | .error e => (.error e, mc)
  | .ok dr =>
    match Register.from_u16 ((instr >>> 6) &&& THREE_BIT_MASK) with
    | .error e => (.error e, mc)
    | .ok sr =>
      let mc2 := mc.setReg dr (65535 ^^^ mc.regs sr)
      (.ok (), VM.update_flags mc2 dr)

/-- VM::and (src/vm.rs lines 190-211). -/
def VM.and (mc : Machine) (instr : Nat) : (Except VMError Unit) × Machine :=
  match Register.from_u16 ((instr >>> 9) &&& THREE_BIT_MASK) with
  | .error e => (.error e, mc)
  | .ok dr =>
    match Register.from_u16 ((instr >>> 6) &&& THREE_BIT_MASK) with
    | .error e => (.error e, mc)
    | .ok sr1 =>
      let imm_flag := (instr >>> 5) &&& ONE_BIT_MASK
      if imm_flag = 1 then
        match sign_extend (instr &&& FIVE_BIT_MASK) 5 with
        | .error e => (.error e, mc)
        | .ok imm5 =>
          let mc2 := mc.setReg dr (mc.regs sr1 &&& imm5)
          (.ok (), VM.update_flags mc2 dr)
      else
        match Register.from_u16 (instr &&& THREE_BIT_MASK) with
        | .error e => (.error e, mc)
        | .ok sr2 =>
          let mc2 := mc.setReg dr (mc.regs sr1 &&& mc.regs sr2)
          (.ok (), VM.update_flags mc2 dr)

/-- VM::branch (src/vm.rs lines 222-234). -/
def VM.branch (mc : Machine) (instr : Nat) : (Except VMError Unit) × Machine :=
  match sign_extend (instr &&& NINE_BIT_MASK) 9 with
  | .error e => (.error e, mc)
  | .ok pc_offset =>
    let cond_flag := (instr >>> 9) &&& THREE_BIT_MASK
    let coincides := cond_flag &&& mc.regs .Cond
    if coincides ≠ 0 then (.ok (), mc.setReg .PC (wadd (mc.regs .PC) pc_offset))
    else (.ok (), mc)

/-- VM::jump (src/vm.rs lines 238-243). -/
def VM.jump (mc : Machine) (instr : Nat) : (Except VMError Unit) × Machine :=
  match Register.from_u16 ((instr >>> 6) &&& THREE_BIT_MASK) with
  | .error e => (.error e, mc)
  | .ok baser_r => (.ok (), mc.setReg .PC (mc.regs baser_r))

/-- VM::jump_register (src/vm.rs lines 251-263); R7 receives the PC
before any branch of the dispatch. -/
def VM.jump_register (mc : Machine) (instr : Nat) : (Except VMError Unit) × Machine :=
  let long_flag := (instr >>> 11) &&& 1
  let mc1 := mc.setReg .R7 (mc.regs .PC)
  if long_flag = 1 then
    match sign_extend (instr &&& ELEVEN_BIT_MASK) 11 with
    | .error e => (.error e, mc1)
    | .ok long_pc_offset =>
      (.ok (), mc1.setReg .PC (wadd (mc1.regs .PC) long_pc_offset))
  else
    match Register.from_u16 ((instr >>> 6) &&& THREE_BIT_MASK) with
    | .error e => (.error e, mc1)
    | .ok r1 => (.ok (), mc1.setReg .PC (mc1.regs r1))

/-- VM::load_indirect (src/vm.rs lines 275-288). -/
def VM.load_indirect (mc : Machine) (instr : Nat) : (Except VMError Unit) × Machine :=
  match Register.from_u16 ((instr >>> 9) &&& THREE_BIT_MASK) with
  | .error e => (.error e, mc)
  | .ok dr =>
    match sign_extend (instr &&& NINE_BIT_MASK) 9 with
    | .error e => (.error e, mc)
    | .ok pc_offset =>
      let address_of_final_address := wadd (mc.regs .PC) pc_offset
      match mc.memRead address_of_final_address with
      | (.error e, mc1) => (.error e, mc1)
      | (.ok final_address, mc1) =>
        match mc1.memRead final_address with
        | (.error e, mc2) => (.error e, mc2)
        | (.ok v, mc2) =>
          let mc3 := mc2.setReg dr v
          (.ok (), VM.update_flags mc3 dr)

/-- VM::load (src/vm.rs lines 291-302). -/
def VM.load (mc : Machine) (instr : Nat) : (Except VMError Unit) × Machine :=
  match Register.from_u16 ((instr >>> 9) &&& THREE_BIT_MASK) with
  | .error e => (.error e, mc)
  | .ok dr =>
    match sign_extend (instr &&& NINE_BIT_MASK) 9 with
    | .error e => (.error e, mc)
    | .ok pc_offset =>
      let address := wadd (mc.regs .PC) pc_offset
      match mc.memRead address with
      | (.error e, mc1) => (.error e, mc1)
      | (.ok v, mc1) =>
        let mc2 := mc1.setReg dr v
        (.ok (), VM.update_flags mc2 dr)

/-- VM::load_register (src/vm.rs lines 307-320). -/
def VM.load_register (mc : Machine) (instr : Nat) : (Except VMError Unit) × Machine :=
  match Register.from_u16 ((instr >>> 9) &&& THREE_BIT_MASK) with
  | .error e => (.error e, mc)
  | .ok dr =>
    match Register.from_u16 ((instr >>> 6) &&& THREE_BIT_MASK) with
    | .error e => (.error e, mc)
    | .ok r1 =>
      match sign_extend (instr &&& SIX_BIT_MASK) 6 with
      | .error e => (.error e, mc)
      | .ok offset6 =>
        let address := wadd (mc.regs r1) offset6
        match mc.memRead address with
        | (.error e, mc1) => (.error e, mc1)
        | (.ok v, mc1) =>
          let mc2 := mc1.setReg dr v
          (.ok (), VM.update_flags mc2 dr)

/-- VM::load_effective_address (src/vm.rs lines 324-334). -/
def VM.load_effective_address (mc : Machine) (instr : Nat) :
    (Except VMError Unit) × Machine :=
  match Register.from_u16 ((instr >>> 9) &&& THREE_BIT_MASK) with
  | .error e => (.error e, mc)
  | .ok dr =>
    match sign_extend (instr &&& NINE_BIT_MASK) 9 with
    | .error e => (.error e, mc)
    | .ok pc_offset =>
      let mc2 := mc.setReg dr (wadd (mc.regs .PC) pc_offset)
      (.ok (), VM.update_flags mc2 dr)

/-- VM::store (src/vm.rs lines 338-348). -/
def VM.store (mc : Machine) (instr : Nat) : (Except VMError Unit) × Machine :=
  match Register.from_u16 ((instr >>> 9) &&& THREE_BIT_MASK) with
  | .error e => (.error e, mc)
  | .ok sr =>
    match sign_extend (instr &&& NINE_BIT_MASK) 9 with
    | .error e => (.error e, mc)
    | .ok pc_offset =>
      let address := wadd (mc.regs .PC) pc_offset
      let new_val := mc.regs sr
      mc.memWrite address new_val

/-- VM::store_indirect (src/vm.rs lines 355-370). -/
def VM.store_indirect (mc : Machine) (instr : Nat) : (Except VMError Unit) × Machine :=
  match Register.from_u16 ((instr >>> 9) &&& THREE_BIT_MASK) with
  | .error e => (.error e, mc)
  | .ok sr =>
    match sign_extend (instr &&& NINE_BIT_MASK) 9 with
    | .error e => (.error e, mc)
    | .ok pc_offset =>
      let first_address := wadd (mc.regs .PC) pc_offset
      match mc.memRead first_address with
      | (.error e, mc1) => (.error e, mc1)
      | (.ok final_address, mc1) =>
        let new_val := mc1.regs sr
        mc1.memWrite final_address new_val

/-- VM::store_register (src/vm.rs lines 379-394). -/
def VM.store_register (mc : Machine) (instr : Nat) : (Except VMError Unit) × Machine :=
  match Register.from_u16 ((instr >>> 9) &&& THREE_BIT_MASK) with
  | .error e => (.error e, mc)
  | .ok sr =>
    match Register.from_u16 ((instr >>> 6) &&& THREE_BIT_MASK) with
    | .error e => (.error e, mc)
    | .ok r1 =>
      match sign_extend (instr &&& SIX_BIT_MASK) 6 with
      | .error e => (.error e, mc)
      | .ok offset =>
        let address := wadd (mc.regs r1) offset
        let new_val := mc.regs sr
        mc.memWrite address new_val

/-- VM::get_c (src/vm.rs lines 420-426). -/
def VM.get_c (mc : Machine) : (Except VMError Unit) × Machine :=
  match getchar mc.input with
  | .error e => (.error e, mc)
  | .ok (b, rest) =>
    let mc1 := { mc with input := rest }
    let mc2 := mc1.setReg .R0 b
    (.ok (), VM.update_flags mc2 .R0)

/-- VM::out (src/vm.rs lines 429-435). -/
def VM.out (mc : Machine) : (Except VMError Unit) × Machine :=
  match u8TryFrom (mc.regs .R0) with
  | .error e => (.error e, mc)
  | .ok c => (.ok (), stdout_write [c] mc)

/-- Bytes of the prompt printed by VM::trap_in (src/vm.rs line 443). -/
def promptBytes : List Nat :=
  [69, 110, 116, 101, 114, 32, 97, 32, 99, 104, 97, 114, 97, 99, 116, 101, 114, 58, 32]

/-- VM::trap_in (src/vm.rs lines 438-450); the `print!` prompt goes to
the same host output as the echo that follows. -/
def VM.trap_in (mc : Machine) : (Except VMError Unit) × Machine :=
  let mc0 := stdout_write promptBytes mc
  match getchar mc0.input with
  | .error e => (.error e, mc0)
  | .ok (b, rest) =>
    let mc1 := stdout_write [b] { mc0 with input := rest }
    let mc2 := stdout_flush mc1
    let mc3 := mc2.setReg .R0 b
    (.ok (), VM.update_flags mc3 .R0)

/-- The `while c != NULL` loop of VM::puts (src/vm.rs lines 462-470).
The fuel argument bounds the number of iterations; `none` means the fuel
ran out before the loop terminated (the source loop would still be
running). -/
def putsLoop (fuel : Nat) (mc : Machine) (c_addr c : Nat) :
    Option ((Except VMError Unit) × Machine) :=
  if c ≠ NULL then
    match fuel with
    | 0 => none
    | fuel2 + 1 =>
      match u8TryFrom c with
      | .error e => some (.error e, mc)
      | .ok ch =>
        let mc1 := stdout_write [ch] mc
        let c_addr2 := wadd c_addr 1
        match mc1.memRead c_addr2 with
        | (.error e, mc2) => some (.error e, mc2)
        | (.ok c2, mc2) => putsLoop fuel2 mc2 c_addr2 c2
  else some (.ok (), stdout_flush mc)

/-- VM::puts (src/vm.rs lines 455-473). -/
def VM.puts (fuel : Nat) (mc : Machine) : Option ((Except VMError Unit) × Machine) :=
  let c_addr := mc.regs .R0
  match mc.memRead c_addr with
  | (.error e, mc1) => some (.error e, mc1)
  | (.ok c, mc1) => putsLoop fuel mc1 c_addr c

/-- The `while c != NULL` loop of VM::puts_p (src/vm.rs lines 485-501). -/
def putsPLoop (fuel : Nat) (mc : Machine) (c_addr c : Nat) :
    Option ((Except VMError Unit) × Machine) :=
  if c ≠ NULL then
    match fuel with
    | 0 => none
    | fuel2 + 1 =>
      match u8TryFrom (c &&& 0xFF) with
      | .error e => some (.error e, mc)
      | .ok char1 =>
        let mc1 := stdout_write [char1] mc
        match u8TryFrom (c >>> 8) with
        | .error e => (some (.error e, mc1))
        | .ok char2 =>
          let mc2 := if char2 ≠ 0x00 then stdout_write [char2] mc1 else mc1
          let c_addr2 := wadd c_addr 1
          match mc2.memRead c_addr2 with
          | (.error e, mc3) => some (.error e, mc3)
          | (.ok c2, mc3) => putsPLoop fuel2 mc3 c_addr2 c2
  else some (.ok (), stdout_flush mc)

/-- VM::puts_p (src/vm.rs lines 478-504). -/
def VM.puts_p (fuel : Nat) (mc : Machine) : Option ((Except VMError Unit) × Machine) :=
  let c_addr := mc.regs .R0
  match mc.memRead c_addr with
  | (.error e, mc1) => some (.error e, mc1)
  | (.ok c, mc1) => putsPLoop fuel mc1 c_addr c

/-- VM::halt (src/vm.rs lines 509-516): writes the bytes of the string
HALT followed by a newline, flushes, and clears the running flag. -/
def VM.halt (mc : Machine) : (Except VMError Unit) × Machine :=
  let mc1 := stdout_write [72, 65, 76, 84, 10] mc
  let mc2 := stdout_flush mc1
  (.ok (), { mc2 with running := false })

/-- VM::trap (src/vm.rs lines 400-417): R7 receives the PC before the
trap code is decoded. -/
def VM.trap (fuel : Nat) (mc : Machine) (instr : Nat) :
    Option ((Except VMError Unit) × Machine) :=
  let mc1 := mc.setReg .R7 (mc.regs .PC)
  match TrapCode.try_from (instr &&& EIGHT_BIT_MASK) with
  | .error e => some (.error e, mc1)
  | .ok tc =>
    match tc with
    | .GetC => some (VM.get_c mc1)
    | .Out => some (VM.out mc1)
    | .Puts => VM.puts fuel mc1
    | .In => some (VM.trap_in mc1)
    | .PutsP => VM.puts_p fuel mc1
    | .Halt => some (VM.halt mc1)

/-- One iteration of VM::run (src/vm.rs lines 93-117): read the word at
PC, advance PC by one with 16-bit wrap, decode the opcode nibble, and
dispatch.  The fuel argument is threaded to the trap service loops. -/
def VM.step (fuel : Nat) (mc : Machine) : Option ((Except VMError Unit) × Machine) :=
  let instr_addr := mc.regs .PC
  let mc1 := mc.setReg .PC (wadd (mc.regs .PC) 1)
  match mc1.memRead instr_addr with
  | (.error e, mc2) => some (.error e, mc2)
  | (.ok instr, mc2) =>
    match OpCode.try_from (instr >>> 12) with
    | .error e => some (.error e, mc2)
    | .ok op =>
      match op with
      | .Br => some (VM.branch mc2 instr)
      | .Add => some (VM.add mc2 instr)
      | .Ld => some (VM.load mc2 instr)
      | .St => some (VM.store mc2 instr)
      | .Jsr => some (VM.jump_register mc2 instr)
      | .And => some (VM.and mc2 instr)
      | .Ldr => some (VM.load_register mc2 instr)
      | .Str => some (VM.store_register mc2 instr)
      | .Not => some (VM.not mc2 instr)
      | .Ldi => some (VM.load_indirect mc2 instr)
      | .Sti => some (VM.store_indirect mc2 instr)
      | .Jmp => some (VM.jump mc2 instr)
      | .Lea => some (VM.load_effective_address mc2 instr)
      | .Trap => VM.trap fuel mc2 instr

/-- The ten opcodes whose instruction bodies never write PC. -/
def sequentialOps : List OpCode :=
  [.Add, .And, .Not, .Ld, .Ldi, .Ldr, .Lea, .St, .Sti, .Str]

/-- The per-chunk loop of VM::read_image_file (src/vm.rs lines 77-89):
each pair of bytes is combined big-endian and written at the current
address, which advances with 16-bit wrap.  `chunks(2)` yields a final
one-byte chunk for an odd-length list, whose missing second byte fails
with `NoMoreBytes`.  The memory reached at the point of an error is
returned alongside it. -/
def loadLoop : List Nat → Nat → (Nat → Nat) → (Except VMError Unit) × (Nat → Nat)
  | [], _, m => (.ok (), m)
  | [_], _, m => (.error (.NoMoreBytes "No byte1 in chunk"), m)
  | b0 :: b1 :: rest, mem_addr, m =>
    let data := b0 * 256 + b1
    match Memory.write m mem_addr data with
    | .error e => (.error e, m)
    | .ok m2 => loadLoop rest (wadd mem_addr 1) m2

/-- VM::read_image_file (src/vm.rs lines 68-91).  The first two bytes
are taken with `Vec::remove(0)`, which aborts with an index-out-of-bounds
panic — modelled as `none` — when the vector is empty; it does not
return a `VMError`. -/
def read_image_file (file_bytes : List Nat) (m : Nat → Nat) :
    Option ((Except VMError Unit) × (Nat → Nat)) :=
  match file_bytes with
  | [] => none
  | [_] => none
  | byte0 :: byte1 :: rest =>
    let origin := byte0 * 256 + byte1
    some (loadLoop rest origin m)

/-- Net effect on memory of writing the words `ws` at consecutive
wrapping addresses starting at `addr` (the loader's data pass). -/
def applyWords : List Nat → Nat → (Nat → Nat) → (Nat → Nat)
  | [], _, m => m
  | w :: ws, addr, m => applyWords ws (wadd addr 1) (memUpdate m addr w)

/-- The big-endian byte pairs of a list of 16-bit words. -/
def wordsToBytes : List Nat → List Nat
  | [] => []
  | w :: ws => w / 256 :: w % 256 :: wordsToBytes ws

/-- The all-zero memory (the state of a fresh VM). -/
def memZero : Nat → Nat := fun _ => 0

/-- A machine whose registers and memory are all zero, with no host
input and no output yet. -/
def MW0 : Machine :=
  { regs := fun _ => 0, mem := memZero, running := true, input := [], output := [], reads := 0 }

/-- A machine poised to execute an ADD-immediate instruction: PC is
0x3000 and mem[0x3000] holds 0x103F (ADD R0, R0, #-1). -/
def M3 : Machine :=
  { regs := fun q => if q.index = 8 then 0x3000 else 0,
    mem := fun a => if a = 0x3000 then 0x103F else 0,
    running := true, input := [], output := [], reads := 0 }

/-- The machine after one step of `M3`. -/
def M3s : Machine :=
  match VM.step 0 M3 with
  | some (_, m) => m
  | none => M3

/-- A machine for the PUTS counterexample: R0 points at 0x3000,
mem[0x3000] = 0x0100 (nonzero, above 0xFF), mem[0x3001] = 0. -/
def M6 : Machine :=
  { regs := fun q => if q.index = 0 then 0x3000 else 0,
    mem := fun a => if a = 0x3000 then 0x0100 else 0,
    running := true, input := [], output := [], reads := 0 }

/-- A machine for the PUTS witness: R0 points at 0x3000, where the
byte-sized words 72, 73 are followed by the terminating 0. -/
def MP : Machine :=
  { regs := fun q => if q.index = 0 then 0x3000 else 0,
    mem := fun a => if a = 0x3000 then 72 else if a = 0x3001 then 73 else 0,
    running := true, input := [], output := [], reads := 0 }

/-- Words for the image-loader counterexample: 65537 data words, so that
the last word lands on the same address as the first. -/
def wsCE : List Nat := 2 :: (List.replicate 65535 1 ++ [7])

/-- Image bytes for the loader counterexample: origin 0 followed by the
byte pairs of `wsCE`. -/
def bytesCE : List Nat := 0 :: 0 :: wordsToBytes wsCE

/-- Spec-side definition: the value of `v` read as a `width`-bit
two's-complement number (claim C1's notion of interpretation). -/
def toInt2c (width v : Nat) : Int :=
  if v < 2 ^ (width - 1) then (v : Int) else (v : Int) - 2 ^ width

/-- Spec-side definition: the 16-bit representation of an integer. -/
def toU16 (i : Int) : Nat := (i % 65536).toNat

/-- Discriminator for `Except` results. -/
def exceptIsOk {α : Type} : Except VMError α → Bool
  | .ok _ => true
  | .error _ => false

lemma shlU16_of_le (w : Nat) (h1 : 1 ≤ w) (h2 : w ≤ 15) :
    shlU16 65535 w = 2 ^ w * (2 ^ (16 - w) - 1) := by
  have hw16 : w % 16 = w := Nat.mod_eq_of_lt (by omega)
  have he2 : 2 ^ w ≤ 2 ^ 15 := Nat.pow_le_pow_right (by norm_num) h2
  have he1 : 1 ≤ 2 ^ w := Nat.one_le_two_pow
  have hef : 2 ^ w * 2 ^ (16 - w) = 65536 := by
    rw [← pow_add]
    have h : w + (16 - w) = 16 := by omega
    rw [h]
    norm_num
  have h15 : (2 : Nat) ^ 15 = 32768 := by norm_num
  rw [shlU16, hw16, Nat.shiftLeft_eq]
  have hd : 2 ^ w * (2 ^ (16 - w) - 1) = 2 ^ w * 2 ^ (16 - w) - 2 ^ w := by
    rw [Nat.mul_comm, Nat.sub_mul, Nat.one_mul, Nat.mul_comm]
  rw [hd, hef]
  omega

lemma sign_extend_ok_of_pos (x width : Nat) (h1 : 1 ≤ width) :
    exceptIsOk (sign_extend x width) = true := by
  unfold sign_extend checkedSub
  have : 1 ≤ width := h1
  rw [if_pos this]
  simp only []
  split <;> rfl

/-- Claim C1 (counterexample).  At width 16 with the sign bit set the
claim demands the identity result 0x8000, but `0xFFFF << 16` on u16
masks the shift amount to 0 (it aborts under debug assertions), so the
code ORs in 0xFFFF and returns 0xFFFF. -/
theorem sign_extend_claim_cex :
    sign_extend 32768 16 = .ok 65535 ∧ toInt2c 16 65535 ≠ toInt2c 16 32768 := by
  constructor
  · rfl
  · decide

/-- Claim C1 (amended): for every width in 1..=16 and every x in
[0, 2 ^ width), except when width = 16 and bit 15 of x is set,
`sign_extend` returns the 16-bit two's-complement representation of x
read as a width-bit two's-complement number; and it fails, with the
`Arithmetic` error, exactly when width = 0. -/
theorem sign_extend_spec :
    (∀ width x, 1 ≤ width → width ≤ 16 → x < 2 ^ width → (width = 16 → x < 2 ^ 15) →
      sign_extend x width = .ok (toU16 (toInt2c width x))) ∧
    (∀ x, sign_extend x 0 = .error (.Arithmetic "Underflow when substracting")) ∧
    (∀ width x, 1 ≤ width → exceptIsOk (sign_extend x width) = true) := by
  refine ⟨?_, ?_, ?_⟩
  · intro width x h1 h16 hx hexc
    have hsub : checkedSub width 1 = some (width - 1) := by
      unfold checkedSub
      rw [if_pos h1]
    have hw15 : width - 1 ≤ 15 := by omega
    have hmod : (width - 1) % 16 = width - 1 := Nat.mod_eq_of_lt (by omega)
    have hmsb : shrU16 x (width - 1) = x / 2 ^ (width - 1) := by
      rw [shrU16, hmod, Nat.shiftRight_eq_div_pow]
    by_cases hlow : x < 2 ^ (width - 1)
    · have hdiv : x / 2 ^ (width - 1) = 0 := Nat.div_eq_of_lt hlow
      have hx15 : x < 2 ^ 15 := lt_of_lt_of_le hlow (Nat.pow_le_pow_right (by norm_num) hw15)
      have hres : sign_extend x width = .ok x := by
        unfold sign_extend
        rw [hsub]
        simp only [hmsb, hdiv]
        norm_num
      have hval : x = toU16 (toInt2c width x) := by
        rw [toInt2c, if_pos hlow, toU16]
        have h15 : (2 : Nat) ^ 15 = 32768 := by norm_num
        omega
      rw [hres]
      exact congrArg Except.ok hval
    · push_neg at hlow
      have hw15s : width ≤ 15 := by
        rcases Nat.lt_or_ge width 16 with h | h
        · omega
        · have : width = 16 := by omega
          subst this
          exact absurd (hexc rfl) (by simpa using hlow)
      have hdiv : x / 2 ^ (width - 1) ≠ 0 := by
        have : 1 ≤ x / 2 ^ (width - 1) :=
          (Nat.one_le_div_iff (Nat.pos_pow_of_pos _ (by norm_num))).mpr hlow
        omega
      have hres : sign_extend x width = .ok (x ||| shlU16 65535 width) := by
        unfold sign_extend
        rw [hsub]
        simp only [hmsb]
        rw [if_pos hdiv]
      have hor : x ||| 2 ^ width * (2 ^ (16 - width) - 1) =
          2 ^ width * (2 ^ (16 - width) - 1) + x := by
        rw [Nat.or_comm, ← Nat.mul_add_lt_is_or hx]
      have hef : 2 ^ width * 2 ^ (16 - width) = 65536 := by
        rw [← pow_add]
        have h : width + (16 - width) = 16 := by omega
        rw [h]
        norm_num
      have hmask : 2 ^ width * (2 ^ (16 - width) - 1) = 65536 - 2 ^ width := by
        have hd : 2 ^ width * (2 ^ (16 - width) - 1) =
            2 ^ width * 2 ^ (16 - width) - 2 ^ width := by
          rw [Nat.mul_comm, Nat.sub_mul, Nat.one_mul, Nat.mul_comm]
        rw [hd, hef]
      have hple : 2 ^ width ≤ 2 ^ 15 := Nat.pow_le_pow_right (by norm_num) hw15s
      have h15 : (2 : Nat) ^ 15 = 32768 := by norm_num
      have hval : x ||| shlU16 65535 width = toU16 (toInt2c width x) := by
        rw [shlU16_of_le width h1 hw15s, hor, hmask, toInt2c, if_neg (by omega), toU16]
        have hcast : ((2 : Int) ^ width) = ((2 ^ width : Nat) : Int) := by push_cast; ring
        rw [hcast]
        omega
      rw [hres]
      exact congrArg Except.ok hval
  · intro x
    rfl
  · intro width x h1
    exact sign_extend_ok_of_pos x width h1

/-- Claim C1 (witness): the amended theorem evaluated at width 5,
x = 16 = 0b10000 (negative, extends to 0xFFF0), at width 0 (Arithmetic
error), and at width 9. -/
theorem sign_extend_spec_witness :
    sign_extend 16 5 = .ok (toU16 (toInt2c 5 16)) ∧
    sign_extend 0 0 = .error (.Arithmetic "Underflow when substracting") ∧
    exceptIsOk (sign_extend 77 9) = true :=
  ⟨sign_extend_spec.1 5 16 (by norm_num) (by norm_num) (by norm_num) (by omega),
   sign_extend_spec.2.1 0,
   sign_extend_spec.2.2 9 77 (by norm_num)⟩

/-- Claim C2: after `update_flags(r)` the COND register holds exactly one
of the one-hot values P = 1, Z = 2, N = 4; it is Z iff the register value
is 0, N iff the value is nonzero with bit 15 set, and P otherwise. -/
theorem update_flags_cond_spec (mc : Machine) (r : Register) (h : mc.regs r < 65536) :
    ((VM.update_flags mc r).regs .Cond = CondFlag.Pos.value ∨
     (VM.update_flags mc r).regs .Cond = CondFlag.Zro.value ∨
     (VM.update_flags mc r).regs .Cond = CondFlag.Neg.value) ∧
    ((VM.update_flags mc r).regs .Cond = CondFlag.Zro.value ↔ mc.regs r = 0) ∧
    ((VM.update_flags mc r).regs .Cond = CondFlag.Neg.value ↔
      (mc.regs r ≠ 0 ∧ Nat.testBit (mc.regs r) 15 = true)) ∧
    ((VM.update_flags mc r).regs .Cond = CondFlag.Pos.value ↔
      (mc.regs r ≠ 0 ∧ Nat.testBit (mc.regs r) 15 = false)) := by
  have hshift : mc.regs r >>> 15 = mc.regs r / 2 ^ 15 := Nat.shiftRight_eq_div_pow _ _
  have hbit : Nat.testBit (mc.regs r) 15 = decide (mc.regs r / 2 ^ 15 % 2 = 1) :=
    Nat.testBit_to_div_mod
  have h15 : (2 : Nat) ^ 15 = 32768 := by norm_num
  rw [h15] at hshift hbit
  by_cases h0 : mc.regs r = 0
  · have hc : (VM.update_flags mc r).regs .Cond = CondFlag.Zro.value := by
      unfold VM.update_flags
      rw [if_pos h0]
      rfl
    rw [hc]
    refine ⟨by decide, by simp [h0], ?_, ?_⟩
    · simp [h0, CondFlag.value]
    · simp [h0, CondFlag.value]
  · by_cases hs : mc.regs r >>> 15 = 1
    · have hc : (VM.update_flags mc r).regs .Cond = CondFlag.Neg.value := by
        unfold VM.update_flags
        rw [if_neg h0, if_pos hs]
        rfl
      have hb : Nat.testBit (mc.regs r) 15 = true := by
        rw [hshift] at hs
        rw [hbit, hs]
        rfl
      rw [hc]
      refine ⟨by decide, by simp [h0, CondFlag.value], ?_, ?_⟩
      · simp [h0, hb, CondFlag.value]
      · simp [h0, hb, CondFlag.value]
    · have hc : (VM.update_flags mc r).regs .Cond = CondFlag.Pos.value := by
        unfold VM.update_flags
        rw [if_neg h0, if_neg hs]
        rfl
      have hb : Nat.testBit (mc.regs r) 15 = false := by
        rw [hshift] at hs
        have hz : mc.regs r / 32768 = 0 := by omega
        rw [hbit, hz]
        rfl
      rw [hc]
      refine ⟨by decide, by simp [h0, CondFlag.value], ?_, ?_⟩
      · simp [h0, hb, CondFlag.value]
      · simp [h0, hb, CondFlag.value]

/-- Claim C2 (witness): on the all-zero machine the flags update for R0
sets COND to Z. -/
theorem update_flags_cond_witness :
    (VM.update_flags MW0 .R0).regs .Cond = CondFlag.Zro.value ∧ MW0.regs .R0 = 0 :=
  ⟨((update_flags_cond_spec MW0 .R0 (by decide)).2.1).mpr rfl, rfl⟩

/-- Claim C4: for an address outside the two memory-mapped registers,
writing stores the word verbatim and leaves other cells unchanged, and a
subsequent read returns it; a read at any non-KBSR address leaves memory
and input unchanged and returns the stored word. -/
theorem memory_roundtrip_spec :
    (∀ (m : Nat → Nat) (a w : Nat) (input : List Nat),
      a < 65536 → a ≠ 0xFE00 → a ≠ 0xFE02 →
      Memory.write m a w = .ok (memUpdate m a w) ∧
      Memory.read (memUpdate m a w) a input = (.ok w, memUpdate m a w, input) ∧
      (∀ b, b ≠ a → memUpdate m a w b = m b)) ∧
    (∀ (m : Nat → Nat) (a : Nat) (input : List Nat), a < 65536 → a ≠ 0xFE00 →
      Memory.read m a input = (.ok (m a), m, input)) := by
  constructor
  · intro m a w input h16 hA hB
    have hwrite : Memory.write m a w = .ok (memUpdate m a w) := by
      unfold Memory.write
      rw [if_pos (show a < MEMORY_MAX from h16)]
    refine ⟨hwrite, ?_, ?_⟩
    · unfold Memory.read
      rw [if_neg (show ¬ a = MemoryRegister.address .KeyboardStatus from hA)]
      rw [if_pos (show a < MEMORY_MAX from h16)]
      simp [memUpdate]
    · intro b hb
      simp [memUpdate, hb]
  · intro m a input h16 hA
    unfold Memory.read
    rw [if_neg (show ¬ a = MemoryRegister.address .KeyboardStatus from hA)]
    rw [if_pos (show a < MEMORY_MAX from h16)]

/-- Claim C4 (witness): the round trip evaluated at address 5 with word
42, and a plain read at address 7, on the all-zero memory. -/
theorem memory_roundtrip_witness :
    Memory.write memZero 5 42 = .ok (memUpdate memZero 5 42) ∧
    Memory.read (memUpdate memZero 5 42) 5 [] = (.ok 42, memUpdate memZero 5 42, []) ∧
    Memory.read memZero 7 [] = (.ok (memZero 7), memZero, []) :=
  ⟨(memory_roundtrip_spec.1 memZero 5 42 [] (by norm_num) (by norm_num) (by norm_num)).1,
   (memory_roundtrip_spec.1 memZero 5 42 [] (by norm_num) (by norm_num) (by norm_num)).2.1,
   memory_roundtrip_spec.2 memZero 7 [] (by norm_num) (by norm_num)⟩

/-- Claim C5: a read of KBSR (0xFE00) performs the input probe.  With a
byte available it stores 0x8000 into KBSR, the byte into KBDR, consumes
exactly that byte, and returns 0x8000 (the stored KBSR cell); with no
byte available it returns the `STDINRead` error. -/
theorem memory_kbsr_probe_spec :
    (∀ (m : Nat → Nat) (b : Nat) (rest : List Nat),
      Memory.read m 0xFE00 (b :: rest) =
        (.ok 0x8000, memUpdate (memUpdate m 0xFE00 0x8000) 0xFE02 b, rest)) ∧
    (∀ m : Nat → Nat,
      (Memory.read m 0xFE00 []).1 = .error (.STDINRead "failed to fill whole buffer")) :=
  ⟨fun m b rest => rfl, fun m => rfl⟩

/-- Claim C10: when the probe triggered by a read of KBSR fails to obtain
a byte, the error return happens after KBSR has already been overwritten
with 0x8000, so the failing read does not leave memory unchanged. -/
theorem kbsr_failed_probe_mutation (m : Nat → Nat) :
    (Memory.read m 0xFE00 []).1 = .error (.STDINRead "failed to fill whole buffer") ∧
    (Memory.read m 0xFE00 []).2.1 = memUpdate m 0xFE00 0x8000 ∧
    memUpdate m 0xFE00 0x8000 0xFE00 = 0x8000 :=
  ⟨rfl, rfl, rfl⟩

lemma loadLoop_words (ws : List Nat) : ∀ (addr : Nat) (m : Nat → Nat), addr < 65536 →
    loadLoop (wordsToBytes ws) addr m = (.ok (), applyWords ws addr m) := by
  induction ws with
  | nil => intro addr m h; rfl
  | cons w ws ih =>
    intro addr m h
    show loadLoop (w / 256 :: w % 256 :: wordsToBytes ws) addr m = _
    have hdata : w / 256 * 256 + w % 256 = w := by omega
    have hwrite : Memory.write m addr (w / 256 * 256 + w % 256) = .ok (memUpdate m addr w) := by
      unfold Memory.write
      rw [if_pos (show addr < MEMORY_MAX from h), hdata]
    simp only [loadLoop, hwrite]
    exact ih (wadd addr 1) (memUpdate m addr w) (Nat.mod_lt _ (by norm_num))

lemma loadLoop_words_trailing (ws : List Nat) (b : Nat) :
    ∀ (addr : Nat) (m : Nat → Nat), addr < 65536 →
    loadLoop (wordsToBytes ws ++ [b]) addr m =
      (.error (.NoMoreBytes "No byte1 in chunk"), applyWords ws addr m) := by
  induction ws with
  | nil => intro addr m h; rfl
  | cons w ws ih =>
    intro addr m h
    show loadLoop (w / 256 :: w % 256 :: (wordsToBytes ws ++ [b])) addr m = _
    have hdata : w / 256 * 256 + w % 256 = w := by omega
    have hwrite : Memory.write m addr (w / 256 * 256 + w % 256) = .ok (memUpdate m addr w) := by
      unfold Memory.write
      rw [if_pos (show addr < MEMORY_MAX from h), hdata]
    simp only [loadLoop, hwrite]
    exact ih (wadd addr 1) (memUpdate m addr w) (Nat.mod_lt _ (by norm_num))

lemma applyWords_cons (w : Nat) (ws : List Nat) (addr : Nat) (m : Nat → Nat) :
    applyWords (w :: ws) addr m = applyWords ws (wadd addr 1) (memUpdate m addr w) := rfl

lemma applyWords_append (ws : List Nat) (w : Nat) : ∀ (addr : Nat) (m : Nat → Nat),
    addr < 65536 →
    applyWords (ws ++ [w]) addr m =
      memUpdate (applyWords ws addr m) ((addr + ws.length) % 65536) w := by
  induction ws with
  | nil =>
    intro addr m h
    show applyWords [w] addr m = _
    simp only [applyWords, List.length_nil, Nat.add_zero, Nat.mod_eq_of_lt h]
  | cons v ws ih =>
    intro addr m h
    show applyWords (v :: (ws ++ [w])) addr m = _
    simp only [applyWords, List.length_cons]
    rw [ih (wadd addr 1) _ (Nat.mod_lt _ (by norm_num))]
    have haddr : ((wadd addr 1) + ws.length) % 65536 = (addr + (ws.length + 1)) % 65536 := by
      simp only [wadd]
      omega
    rw [haddr]

lemma applyWords_sem (ws : List Nat) : ∀ (addr : Nat) (m : Nat → Nat),
    addr < 65536 → ws.length ≤ 65536 →
    ((∀ i, (hi : i < ws.length) →
        applyWords ws addr m ((addr + i) % 65536) = ws.get ⟨i, hi⟩) ∧
     (∀ a, (∀ i, i < ws.length → a ≠ (addr + i) % 65536) → applyWords ws addr m a = m a)) := by
  induction ws with
  | nil =>
    intro addr m h hlen
    constructor
    · intro i hi
      exact absurd hi (by simp)
    · intro a ha
      rfl
  | cons w ws ih =>
    intro addr m h hlen
    have hlen1 : ws.length + 1 ≤ 65536 := by simpa using hlen
    obtain ⟨ih1, ih2⟩ :=
      ih (wadd addr 1) (memUpdate m addr w) (Nat.mod_lt _ (by norm_num)) (by omega)
    constructor
    · intro i hi
      match i with
      | 0 =>
        show applyWords ws (wadd addr 1) (memUpdate m addr w) ((addr + 0) % 65536) = w
        rw [ih2]
        · have ha0 : (addr + 0) % 65536 = addr := by omega
          rw [ha0]
          simp [memUpdate]
        · intro j hj
          simp only [wadd]
          omega
      | i + 1 =>
        show applyWords ws (wadd addr 1) (memUpdate m addr w) ((addr + (i + 1)) % 65536) =
          (w :: ws).get ⟨i + 1, hi⟩
        have hi2 : i < ws.length := by simpa using hi
        have haddr : (addr + (i + 1)) % 65536 = ((wadd addr 1) + i) % 65536 := by
          simp only [wadd]
          omega
        rw [haddr, ih1 i hi2]
        rfl
    · intro a ha
      show applyWords ws (wadd addr 1) (memUpdate m addr w) a = m a
      rw [ih2]
      · have h0 : a ≠ addr := by
          have h00 := ha 0 (by simp)
          have ha0 : (addr + 0) % 65536 = addr := by omega
          rwa [ha0] at h00
        simp [memUpdate, h0]
      · intro j hj
        have hj1 := ha (j + 1) (by simp only [List.length_cons]; omega)
        simp only [wadd] at hj1 ⊢
        omega

/-- Claim C7 (amended): loading an image whose data part holds at most
65536 words (so that the wrapping address never revisits a cell) leaves
mem[(origin + i) mod 2^16] equal to the i-th data word and every other
cell unchanged. -/
theorem read_image_spec (ws : List Nat) (b0 b1 : Nat) (m : Nat → Nat)
    (hlen : ws.length ≤ 65536) (hb0 : b0 < 256) (hb1 : b1 < 256) :
    read_image_file (b0 :: b1 :: wordsToBytes ws) m =
      some (.ok (), applyWords ws (b0 * 256 + b1) m) ∧
    (∀ i, (hi : i < ws.length) →
      applyWords ws (b0 * 256 + b1) m ((b0 * 256 + b1 + i) % 65536) = ws.get ⟨i, hi⟩) ∧
    (∀ a, (∀ i, i < ws.length → a ≠ (b0 * 256 + b1 + i) % 65536) →
      applyWords ws (b0 * 256 + b1) m a = m a) := by
  have horig : b0 * 256 + b1 < 65536 := by omega
  obtain ⟨h1, h2⟩ := applyWords_sem ws (b0 * 256 + b1) m horig hlen
  refine ⟨?_, h1, h2⟩
  show some (loadLoop (wordsToBytes ws) (b0 * 256 + b1) m) = _
  rw [loadLoop_words ws (b0 * 256 + b1) m horig]

/-- Claim C7 (witness): the amended theorem evaluated on the repository's
own test image: origin bytes 0xFA 0x00 and data words 0x0102, 0x0304. -/
theorem read_image_spec_witness :
    read_image_file (250 :: 0 :: wordsToBytes [258, 772]) memZero =
      some (.ok (), applyWords [258, 772] (250 * 256 + 0) memZero) ∧
    applyWords [258, 772] (250 * 256 + 0) memZero ((250 * 256 + 0 + 0) % 65536) = 258 ∧
    applyWords [258, 772] (250 * 256 + 0) memZero ((250 * 256 + 0 + 1) % 65536) = 772 := by
  obtain ⟨h1, h2, h3⟩ :=
    read_image_spec [258, 772] 250 0 memZero (by norm_num) (by norm_num) (by norm_num)
  exact ⟨h1, h2 0 (by norm_num), h2 1 (by norm_num)⟩

/-- Claim C7 (counterexample).  With 65537 data words the write address
wraps: the word at index 65536 lands back on the origin cell, so the
loaded memory holds 7 there, not the first data word 2 that the claim
requires. -/
theorem read_image_claim_cex :
    read_image_file bytesCE memZero = some (.ok (), applyWords wsCE 0 memZero) ∧
    applyWords wsCE 0 memZero ((0 + 0) % 65536) = 7 ∧
    wsCE.get? 0 = some 2 := by
  refine ⟨?_, ?_, rfl⟩
  · show some (loadLoop (wordsToBytes wsCE) (0 * 256 + 0) memZero) = _
    rw [loadLoop_words wsCE (0 * 256 + 0) memZero (by norm_num)]
  · show applyWords wsCE 0 memZero ((0 + 0) % 65536) = 7
    rw [show wsCE = 2 :: (List.replicate 65535 1 ++ [7]) from rfl, applyWords_cons,
      applyWords_append (List.replicate 65535 1) 7 (wadd 0 1) _ (by norm_num [wadd])]
    rw [List.length_replicate]
    have h1 : (wadd 0 1 + 65535) % 65536 = 0 := by norm_num [wadd]
    have h2 : (0 + 0) % 65536 = 0 := by norm_num
    rw [h1, h2]
    rfl

/-- Claim C8 (counterexample).  On an input of fewer than two bytes the
loader aborts by an out-of-bounds `Vec::remove(0)` (modelled `none`); it
does not produce the `NoMoreBytes` error the claim names. -/
theorem loader_short_input_cex :
    read_image_file [] memZero = none ∧ read_image_file [171] memZero = none :=
  ⟨rfl, rfl⟩

/-- Claim C8 (amended): with fewer than two bytes the loader aborts by an
out-of-bounds panic rather than returning an error, and a trailing
single unpaired data byte fails with `NoMoreBytes` (keeping the words
written before the failure). -/
theorem read_image_error_spec :
    (∀ m : Nat → Nat, read_image_file [] m = none) ∧
    (∀ (b : Nat) (m : Nat → Nat), read_image_file [b] m = none) ∧
    (∀ (ws : List Nat) (b0 b1 b : Nat) (m : Nat → Nat), b0 < 256 → b1 < 256 →
      read_image_file (b0 :: b1 :: (wordsToBytes ws ++ [b])) m =
        some (.error (.NoMoreBytes "No byte1 in chunk"), applyWords ws (b0 * 256 + b1) m)) := by
  refine ⟨fun m => rfl, fun b m => rfl, ?_⟩
  intro ws b0 b1 b m hb0 hb1
  have horig : b0 * 256 + b1 < 65536 := by omega
  show some (loadLoop (wordsToBytes ws ++ [b]) (b0 * 256 + b1) m) = _
  rw [loadLoop_words_trailing ws b (b0 * 256 + b1) m horig]

/-- Claim C8 (witness): the amended theorem evaluated on the bytes
0x00 0x30 (origin 0x30), one data pair 0x00 0x05, and a trailing byte. -/
theorem read_image_error_witness :
    read_image_file [0, 48, 0, 5, 9] memZero =
      some (.error (.NoMoreBytes "No byte1 in chunk"), applyWords [5] (0 * 256 + 48) memZero) :=
  read_image_error_spec.2.2 [5] 0 48 9 memZero (by norm_num) (by norm_num)

/-- Claim C9: decoding opcode nibble 0x8 (RTI) or 0xD (reserved) fails
with `Conversion`; any trap vector outside 0x20..0x25 makes trap code
decoding, and hence the TRAP dispatch, fail with `Conversion` (with R7
already holding PC). -/
theorem illegal_code_conversion_spec :
    (∀ instr : Nat, instr >>> 12 = 8 ∨ instr >>> 12 = 13 →
      OpCode.try_from (instr >>> 12) =
        .error (.Conversion
          ("Invalid u16 (" ++ toString (instr >>> 12) ++ ") for OpCode conversion"))) ∧
    (∀ v : Nat, v ∉ [0x20, 0x21, 0x22, 0x23, 0x24, 0x25] →
      TrapCode.try_from v = .error (.Conversion "Invalid u16 for TrapCode conversion")) ∧
    (∀ (fuel : Nat) (mc : Machine) (instr : Nat),
      (instr &&& EIGHT_BIT_MASK) ∉ [0x20, 0x21, 0x22, 0x23, 0x24, 0x25] →
      VM.trap fuel mc instr =
        some (.error (.Conversion "Invalid u16 for TrapCode conversion"),
          mc.setReg .R7 (mc.regs .PC))) := by
  have htrap : ∀ v : Nat, v ∉ [0x20, 0x21, 0x22, 0x23, 0x24, 0x25] →
      TrapCode.try_from v = .error (.Conversion "Invalid u16 for TrapCode conversion") := by
    intro v h
    simp only [List.mem_cons, List.not_mem_nil, or_false, not_or] at h
    obtain ⟨n1, n2, n3, n4, n5, n6⟩ := h
    unfold TrapCode.try_from
    rw [if_neg n1, if_neg n2, if_neg n3, if_neg n4, if_neg n5, if_neg n6]
  refine ⟨?_, htrap, ?_⟩
  · intro instr h
    rcases h with h | h <;> rw [h] <;> rfl
  · intro fuel mc instr h
    have htc := htrap (instr &&& EIGHT_BIT_MASK) h
    unfold VM.trap
    rw [htc]

/-- Claim C9 (witness): the theorem evaluated at instruction words with
opcode nibbles 0x8 and 0xD, at trap vector 0x26, and at a full TRAP
dispatch of 0xF026 on the all-zero machine. -/
theorem illegal_code_conversion_witness :
    OpCode.try_from (0x8123 >>> 12) =
      .error (.Conversion
        ("Invalid u16 (" ++ toString (0x8123 >>> 12) ++ ") for OpCode conversion")) ∧
    OpCode.try_from (0xD000 >>> 12) =
      .error (.Conversion
        ("Invalid u16 (" ++ toString (0xD000 >>> 12) ++ ") for OpCode conversion")) ∧
    TrapCode.try_from 0x26 = .error (.Conversion "Invalid u16 for TrapCode conversion") ∧
    VM.trap 0 MW0 0xF026 =
      some (.error (.Conversion "Invalid u16 for TrapCode conversion"),
        MW0.setReg .R7 (MW0.regs .PC)) := by
  obtain ⟨h1, h2, h3⟩ := illegal_code_conversion_spec
  exact ⟨h1 0x8123 (by decide), h1 0xD000 (by decide), h2 0x26 (by decide),
    h3 0 MW0 0xF026 (by decide)⟩

lemma Memory_read_plain (m : Nat → Nat) (a : Nat) (input : List Nat)
    (h16 : a < 65536) (hk : a ≠ 0xFE00) :
    Memory.read m a input = (.ok (m a), m, input) := by
  unfold Memory.read
  rw [if_neg (show ¬ a = MemoryRegister.address .KeyboardStatus from hk)]
  rw [if_pos (show a < MEMORY_MAX from h16)]

lemma memRead_plain (mc : Machine) (a : Nat) (h16 : a < 65536) (hk : a ≠ 0xFE00) :
    mc.memRead a = (.ok (mc.mem a), { mc with reads := mc.reads + 1 }) := by
  unfold Machine.memRead
  rw [Memory_read_plain mc.mem a mc.input h16 hk]

lemma putsLoop_step (fuel : Nat) (mc : Machine) (a c : Nat) (hc : c ≠ 0) :
    putsLoop (fuel + 1) mc a c =
      (match u8TryFrom c with
       | .error e => some (.error e, mc)
       | .ok ch =>
         match (stdout_write [ch] mc).memRead (wadd a 1) with
         | (.error e, mc2) => some (.error e, mc2)
         | (.ok c2, mc2) => putsLoop fuel mc2 (wadd a 1) c2) := by
  conv_lhs => unfold putsLoop
  rw [if_pos (show c ≠ NULL from hc)]

lemma putsLoop_zero (fuel : Nat) (mc : Machine) (a : Nat) :
    putsLoop fuel mc a 0 = some (.ok (), stdout_flush mc) := by
  conv_lhs => unfold putsLoop
  rw [if_neg (show ¬ ((0 : Nat) ≠ NULL) from by decide)]

lemma putsLoop_spec (ws : List Nat) : ∀ (fuel : Nat) (mc : Machine) (a c : Nat),
    a < 65536 → c ≠ 0 → c ≤ 255 →
    (∀ i, (hi : i < ws.length) → mc.mem ((a + 1 + i) % 65536) = ws.get ⟨i, hi⟩) →
    (∀ i, (hi : i < ws.length) → ws.get ⟨i, hi⟩ ≠ 0) →
    (∀ i, (hi : i < ws.length) → ws.get ⟨i, hi⟩ ≤ 255) →
    (∀ i, i ≤ ws.length → (a + 1 + i) % 65536 ≠ 0xFE00) →
    mc.mem ((a + 1 + ws.length) % 65536) = 0 →
    ws.length + 1 ≤ fuel →
    putsLoop fuel mc a c =
      some (.ok (), { mc with
        output := mc.output ++ OutEvent.byte c :: (ws.map OutEvent.byte ++ [OutEvent.flush]),
        reads := mc.reads + (ws.length + 1) }) := by
  induction ws with
  | nil =>
    intro fuel mc a c h16 hc hc255 hmem hnz hb hkb hz hfuel
    obtain ⟨fuel2, rfl⟩ : ∃ f2, fuel = f2 + 1 := ⟨fuel - 1, by omega⟩
    have hu8 : u8TryFrom c = .ok c := by
      unfold u8TryFrom
      rw [if_pos hc255]
    have h16b : wadd a 1 < 65536 := Nat.mod_lt _ (by norm_num)
    have haddr : wadd a 1 = (a + 1 + 0) % 65536 := by
      simp [wadd]
    have hkn : wadd a 1 ≠ 0xFE00 := by
      rw [haddr]
      exact hkb 0 (by simp)
    rw [putsLoop_step fuel2 mc a c hc]
    simp only [hu8]
    simp only [memRead_plain (stdout_write [c] mc) (wadd a 1) h16b hkn]
    have hv : (stdout_write [c] mc).mem (wadd a 1) = 0 := by
      show mc.mem (wadd a 1) = 0
      rw [haddr]
      exact hz
    simp only [hv]
    rw [putsLoop_zero]
    simp [stdout_flush, stdout_write, List.append_assoc]
  | cons w ws ih =>
    intro fuel mc a c h16 hc hc255 hmem hnz hb hkb hz hfuel
    obtain ⟨fuel2, rfl⟩ : ∃ f2, fuel = f2 + 1 := ⟨fuel - 1, by omega⟩
    have hu8 : u8TryFrom c = .ok c := by
      unfold u8TryFrom
      rw [if_pos hc255]
    have h16b : wadd a 1 < 65536 := Nat.mod_lt _ (by norm_num)
    have haddr : wadd a 1 = (a + 1 + 0) % 65536 := by
      simp [wadd]
    have hkn : wadd a 1 ≠ 0xFE00 := by
      rw [haddr]
      exact hkb 0 (by simp)
    rw [putsLoop_step fuel2 mc a c hc]
    simp only [hu8]
    simp only [memRead_plain (stdout_write [c] mc) (wadd a 1) h16b hkn]
    have hv : (stdout_write [c] mc).mem (wadd a 1) = w := by
      show mc.mem (wadd a 1) = w
      rw [haddr]
      exact hmem 0 (by simp)
    simp only [hv]
    have hmem2 : ∀ i, (hi : i < ws.length) →
        mc.mem ((wadd a 1 + 1 + i) % 65536) = ws.get ⟨i, hi⟩ := by
      intro i hi
      have haddr2 : (wadd a 1 + 1 + i) % 65536 = (a + 1 + (i + 1)) % 65536 := by
        simp only [wadd]
        omega
      rw [haddr2]
      exact hmem (i + 1) (by simp only [List.length_cons]; omega)
    have hnz2 : ∀ i, (hi : i < ws.length) → ws.get ⟨i, hi⟩ ≠ 0 := fun i hi =>
      hnz (i + 1) (by simp only [List.length_cons]; omega)
    have hb2 : ∀ i, (hi : i < ws.length) → ws.get ⟨i, hi⟩ ≤ 255 := fun i hi =>
      hb (i + 1) (by simp only [List.length_cons]; omega)
    have hkb2 : ∀ i, i ≤ ws.length → (wadd a 1 + 1 + i) % 65536 ≠ 0xFE00 := by
      intro i hi
      have haddr2 : (wadd a 1 + 1 + i) % 65536 = (a + 1 + (i + 1)) % 65536 := by
        simp only [wadd]
        omega
      rw [haddr2]
      exact hkb (i + 1) (by simp only [List.length_cons]; omega)
    have hz2 : mc.mem ((wadd a 1 + 1 + ws.length) % 65536) = 0 := by
      have haddr2 : (wadd a 1 + 1 + ws.length) % 65536 = (a + 1 + (ws.length + 1)) % 65536 := by
        simp only [wadd]
        omega
      rw [haddr2]
      exact hz
    have hfuel2 : ws.length + 1 ≤ fuel2 := by
      simp only [List.length_cons] at hfuel
      omega
    rw [ih fuel2 { stdout_write [c] mc with reads := (stdout_write [c] mc).reads + 1 }
      (wadd a 1) w h16b (hnz 0 (by simp)) (hb 0 (by simp)) hmem2 hnz2 hb2 hkb2 hz2 hfuel2]
    simp [stdout_write, List.append_assoc]
    omega

/-- Claim C6 (amended): PUTS starting at A = R0 over words w₀ … w_{k-1}
that are nonzero AND fit in a byte, terminated by a zero word, with none
of the k+1 scanned addresses equal to KBSR, writes exactly the k words
as bytes in address order followed by a flush, and performs exactly k+1
memory reads.  (The fuel bound only has to cover the k loop
iterations.) -/
theorem puts_spec (ws : List Nat) (fuel : Nat) (mc : Machine) (A : Nat)
    (hA : mc.regs .R0 = A) (hA16 : A < 65536)
    (hmem : ∀ i, (hi : i < ws.length) → mc.mem ((A + i) % 65536) = ws.get ⟨i, hi⟩)
    (hnz : ∀ i, (hi : i < ws.length) → ws.get ⟨i, hi⟩ ≠ 0)
    (hb : ∀ i, (hi : i < ws.length) → ws.get ⟨i, hi⟩ ≤ 255)
    (hkb : ∀ i, i ≤ ws.length → (A + i) % 65536 ≠ 0xFE00)
    (hz : mc.mem ((A + ws.length) % 65536) = 0)
    (hfuel : ws.length ≤ fuel) :
    VM.puts fuel mc =
      some (.ok (), { mc with
        output := mc.output ++ ws.map OutEvent.byte ++ [OutEvent.flush],
        reads := mc.reads + (ws.length + 1) }) := by
  have hAmod : (A + 0) % 65536 = A := by omega
  have hA0 : A ≠ 0xFE00 := by
    have h := hkb 0 (by omega)
    rwa [hAmod] at h
  simp only [VM.puts]
  rw [hA]
  simp only [memRead_plain mc A hA16 hA0]
  cases ws with
  | nil =>
    have hv : mc.mem A = 0 := by
      have h := hz
      rwa [show (A + List.length ([] : List Nat)) % 65536 = A from hAmod] at h
    simp only [hv]
    rw [putsLoop_zero]
    simp [stdout_flush]
  | cons w ws2 =>
    have hv : mc.mem A = w := by
      have h := hmem 0 (by simp)
      rwa [hAmod] at h
    simp only [hv]
    have hmem2 : ∀ i, (hi : i < ws2.length) →
        mc.mem ((A + 1 + i) % 65536) = ws2.get ⟨i, hi⟩ := by
      intro i hi
      have ha2 : (A + 1 + i) % 65536 = (A + (i + 1)) % 65536 := by omega
      rw [ha2]
      exact hmem (i + 1) (by simp only [List.length_cons]; omega)
    have hnz2 : ∀ i, (hi : i < ws2.length) → ws2.get ⟨i, hi⟩ ≠ 0 := fun i hi =>
      hnz (i + 1) (by simp only [List.length_cons]; omega)
    have hb2 : ∀ i, (hi : i < ws2.length) → ws2.get ⟨i, hi⟩ ≤ 255 := fun i hi =>
      hb (i + 1) (by simp only [List.length_cons]; omega)
    have hkb2 : ∀ i, i ≤ ws2.length → (A + 1 + i) % 65536 ≠ 0xFE00 := by
      intro i hi
      have ha2 : (A + 1 + i) % 65536 = (A + (i + 1)) % 65536 := by omega
      rw [ha2]
      exact hkb (i + 1) (by simp only [List.length_cons]; omega)
    have hz2 : mc.mem ((A + 1 + ws2.length) % 65536) = 0 := by
      have ha2 : (A + 1 + ws2.length) % 65536 = (A + (ws2.length + 1)) % 65536 := by omega
      rw [ha2]
      exact hz
    have hfuel2 : ws2.length + 1 ≤ fuel := by
      simp only [List.length_cons] at hfuel
      omega
    rw [putsLoop_spec ws2 fuel { mc with reads := mc.reads + 1 } A w hA16 (hnz 0 (by simp))
      (hb 0 (by simp)) hmem2 hnz2 hb2 hkb2 hz2 hfuel2]
    simp [List.append_assoc]
    omega

/-- Claim C6 (witness): PUTS on a string of the two byte-sized words 72,
73 terminated by 0 emits the two bytes and a flush and reads three
cells. -/
theorem puts_spec_witness :
    VM.puts 2 MP =
      some (.ok (), { MP with
        output := MP.output ++ [72, 73].map OutEvent.byte ++ [OutEvent.flush],
        reads := MP.reads + ([72, 73].length + 1) }) := by
  apply puts_spec [72, 73] 2 MP 0x3000 rfl (by norm_num) (by decide) (by decide) (by decide)
    (by decide) (by decide) (by decide)

/-- Claim C6 (counterexample).  With R0 = 0x3000, mem[0x3000] = 0x0100
(nonzero) and mem[0x3001] = 0, the claim (k = 1) requires PUTS to write
the low byte 0x00 and a flush and to read two cells; the code instead
fails with `Conversion` on `u8::try_from(0x0100)` after a single read,
having written nothing. -/
theorem puts_claim_cex :
    VM.puts 5 M6 =
      some (.error (.Conversion "out of range integral type conversion attempted"),
        { M6 with reads := 1 }) ∧
    M6.regs .R0 = 0x3000 ∧ M6.mem 0x3000 = 0x0100 ∧ M6.mem 0x3001 = 0 ∧ M6.output = [] :=
  ⟨rfl, rfl, rfl, rfl, rfl⟩

lemma regs_setReg_ne (mc : Machine) (r : Register) (v : Nat) (q : Register)
    (h : q.index ≠ r.index) : (mc.setReg r v).regs q = mc.regs q := by
  simp [Machine.setReg, h]

lemma from_u16_index (n : Nat) (r : Register) (h : Register.from_u16 n = .ok r) :
    r.index = n := by
  unfold Register.from_u16 at h
  split_ifs at h with h0 h1 h2 h3 h4 h5 h6 h7 h8 h9
  all_goals first
    | (injection h with h10
       subst h10
       simp [Register.index, *])
    | exact (Except.noConfusion h)

lemma and_three_lt (n : Nat) : n &&& THREE_BIT_MASK < 8 :=
  lt_of_le_of_lt Nat.and_le_right (by norm_num [THREE_BIT_MASK])

lemma update_flags_regs_ne (mc : Machine) (r q : Register) (h : q.index ≠ 9) :
    (VM.update_flags mc r).regs q = mc.regs q := by
  unfold VM.update_flags
  split_ifs <;> exact regs_setReg_ne mc _ _ q h

lemma memRead_regs (mc : Machine) (a : Nat) : ((mc.memRead a).2).regs = mc.regs := by
  unfold Machine.memRead
  rcases Memory.read mc.mem a mc.input with ⟨r2, m2, i2⟩
  rfl

lemma memRead_regs_of (mc mc2 : Machine) (a : Nat) (r : Except VMError Nat)
    (h : mc.memRead a = (r, mc2)) : mc2.regs = mc.regs := by
  have h2 := memRead_regs mc a
  rw [h] at h2
  exact h2

lemma memWrite_regs (mc : Machine) (a v : Nat) : ((mc.memWrite a v).2).regs = mc.regs := by
  unfold Machine.memWrite
  rcases Memory.write mc.mem a v with e | m2 <;> rfl

lemma flags_set_pc (mc : Machine) (dr : Register) (v : Nat) (h : dr.index ≠ 8) :
    ((VM.update_flags (mc.setReg dr v) dr)).regs .PC = mc.regs .PC := by
  rw [update_flags_regs_ne _ dr Register.PC (by decide),
    regs_setReg_ne mc dr v Register.PC (Ne.symm h)]

lemma add_pc (mc : Machine) (instr : Nat) :
    ((VM.add mc instr).2).regs .PC = mc.regs .PC := by
  unfold VM.add
  split
  · rfl
  next dr heqdr =>
    have hdr8 : dr.index ≠ 8 := by
      have h := from_u16_index _ _ heqdr
      have h2 := and_three_lt (instr >>> 9)
      omega
    split
    · rfl
    next sr1 heqsr =>
      dsimp only
      by_cases himm : (instr >>> 5) &&& ONE_BIT_MASK = 1
      · rw [if_pos himm]
        split
        · rfl
        next imm5 heqi =>
          exact flags_set_pc mc dr _ hdr8
      · rw [if_neg himm]
        split
        · rfl
        next sr2 heqs2 =>
          exact flags_set_pc mc dr _ hdr8

lemma and_pc (mc : Machine) (instr : Nat) :
    ((VM.and mc instr).2).regs .PC = mc.regs .PC := by
  unfold VM.and
  split
  · rfl
  next dr heqdr =>
    have hdr8 : dr.index ≠ 8 := by
      have h := from_u16_index _ _ heqdr
      have h2 := and_three_lt (instr >>> 9)
      omega
    split
    · rfl
    next sr1 heqsr =>
      dsimp only
      by_cases himm : (instr >>> 5) &&& ONE_BIT_MASK = 1
      · rw [if_pos himm]
        split
        · rfl
        next imm5 heqi =>
          exact flags_set_pc mc dr _ hdr8
      · rw [if_neg himm]
        split
        · rfl
        next sr2 heqs2 =>
          exact flags_set_pc mc dr _ hdr8

lemma not_pc (mc : Machine) (instr : Nat) :
    ((VM.not mc instr).2).regs .PC = mc.regs .PC := by
  unfold VM.not
  split
  · rfl
  next dr heqdr =>
    have hdr8 : dr.index ≠ 8 := by
      have h := from_u16_index _ _ heqdr
      have h2 := and_three_lt (instr >>> 9)
      omega
    split
    · rfl
    next sr heqsr =>
      exact flags_set_pc mc dr _ hdr8

lemma load_pc (mc : Machine) (instr : Nat) :
    ((VM.load mc instr).2).regs .PC = mc.regs .PC := by
  unfold VM.load
  split
  · rfl
  next dr heqdr =>
    have hdr8 : dr.index ≠ 8 := by
      have h := from_u16_index _ _ heqdr
      have h2 := and_three_lt (instr >>> 9)
      omega
    split
    · rfl
    next pc_offset heqo =>
      dsimp only
      split
      next e mc1 heqr =>
        dsimp only
        rw [memRead_regs_of _ _ _ _ heqr]
      next v mc1 heqr =>
        dsimp only
        rw [flags_set_pc mc1 dr v hdr8, memRead_regs_of _ _ _ _ heqr]

lemma load_indirect_pc (mc : Machine) (instr : Nat) :
    ((VM.load_indirect mc instr).2).regs .PC = mc.regs .PC := by
  unfold VM.load_indirect
  split
  · rfl
  next dr heqdr =>
    have hdr8 : dr.index ≠ 8 := by
      have h := from_u16_index _ _ heqdr
      have h2 := and_three_lt (instr >>> 9)
      omega
    split
    · rfl
    next pc_offset heqo =>
      dsimp only
      split
      next e mc1 heqr =>
        dsimp only
        rw [memRead_regs_of _ _ _ _ heqr]
      next v mc1 heqr =>
        split
        next e2 mc2 heqr2 =>
          dsimp only
          rw [memRead_regs_of _ _ _ _ heqr2, memRead_regs_of _ _ _ _ heqr]
        next v2 mc2 heqr2 =>
          dsimp only
          rw [flags_set_pc mc2 dr v2 hdr8, memRead_regs_of _ _ _ _ heqr2,
            memRead_regs_of _ _ _ _ heqr]

lemma load_register_pc (mc : Machine) (instr : Nat) :
    ((VM.load_register mc instr).2).regs .PC = mc.regs .PC := by
  unfold VM.load_register
  split
  · rfl
  next dr heqdr =>
    have hdr8 : dr.index ≠ 8 := by
      have h := from_u16_index _ _ heqdr
      have h2 := and_three_lt (instr >>> 9)
      omega
    split
    · rfl
    next r1 heqr1 =>
      split
      · rfl
      next offset6 heqo =>
        dsimp only
        split
        next e mc1 heqr =>
          dsimp only
          rw [memRead_regs_of _ _ _ _ heqr]
        next v mc1 heqr =>
          dsimp only
          rw [flags_set_pc mc1 dr v hdr8, memRead_regs_of _ _ _ _ heqr]

lemma lea_pc (mc : Machine) (instr : Nat) :
    ((VM.load_effective_address mc instr).2).regs .PC = mc.regs .PC := by
  unfold VM.load_effective_address
  split
  · rfl
  next dr heqdr =>
    have hdr8 : dr.index ≠ 8 := by
      have h := from_u16_index _ _ heqdr
      have h2 := and_three_lt (instr >>> 9)
      omega
    split
    · rfl
    next pc_offset heqo =>
      exact flags_set_pc mc dr _ hdr8

lemma store_pc (mc : Machine) (instr : Nat) :
    ((VM.store mc instr).2).regs .PC = mc.regs .PC := by
  unfold VM.store
  split
  · rfl
  next sr heqsr =>
    split
    · rfl
    next pc_offset heqo =>
      dsimp only
      rw [memWrite_regs]

lemma store_indirect_pc (mc : Machine) (instr : Nat) :
    ((VM.store_indirect mc instr).2).regs .PC = mc.regs .PC := by
  unfold VM.store_indirect
  split
  · rfl
  next sr heqsr =>
    split
    · rfl
    next pc_offset heqo =>
      dsimp only
      split
      next e mc1 heqr =>
        rw [memRead_regs_of _ _ _ _ heqr]
      next v mc1 heqr =>
        rw [memWrite_regs, memRead_regs_of _ _ _ _ heqr]

lemma store_register_pc (mc : Machine) (instr : Nat) :
    ((VM.store_register mc instr).2).regs .PC = mc.regs .PC := by
  unfold VM.store_register
  split
  · rfl
  next sr heqsr =>
    split
    · rfl
    next r1 heqr1 =>
      split
      · rfl
      next offset heqo =>
        dsimp only
        rw [memWrite_regs]

/-- Claim C3: a successful iteration of the fetch/decode/dispatch loop
whose decoded opcode is one of ADD, AND, NOT, LD, LDI, LDR, LEA, ST,
STI, STR leaves PC at its pre-iteration value plus one, modulo 2^16:
the loop increments PC before the instruction body runs and none of
these bodies writes PC. -/
theorem step_pc_increment (fuel : Nat) (mc mcF : Machine) (instr : Nat) (op : OpCode)
    (hfetch : (((mc.setReg .PC (wadd (mc.regs .PC) 1)).memRead (mc.regs .PC))).1 = .ok instr)
    (hop : OpCode.try_from (instr >>> 12) = .ok op)
    (hseq : op ∈ sequentialOps)
    (hstep : VM.step fuel mc = some (.ok (), mcF)) :
    mcF.regs .PC = wadd (mc.regs .PC) 1 := by
  unfold VM.step at hstep
  dsimp only at hstep
  split at hstep
  next e mcR heqf =>
    rw [heqf] at hfetch
    exact Except.noConfusion (show (Except.error e : Except VMError Nat) = .ok instr from hfetch)
  next instr2 mcR heqf =>
    rw [heqf] at hfetch
    have hfe : (Except.ok instr2 : Except VMError Nat) = .ok instr := hfetch
    injection hfe with hfe2
    subst instr2
    have hpc : mcR.regs .PC = wadd (mc.regs .PC) 1 := by
      rw [memRead_regs_of _ _ _ _ heqf]
      simp [Machine.setReg, Register.index]
    split at hstep
    next e heqop =>
      rw [hop] at heqop
      exact Except.noConfusion heqop
    next op2 heqop =>
      rw [hop] at heqop
      injection heqop with hope
      subst hope
      fin_cases hseq
      · have h2 : some (VM.add mcR instr) = some (Except.ok (), mcF) := hstep
        injection h2 with h3
        have h4 : ((VM.add mcR instr).2) = mcF := by rw [h3]
        rw [← h4, add_pc, hpc]
      · have h2 : some (VM.and mcR instr) = some (Except.ok (), mcF) := hstep
        injection h2 with h3
        have h4 : ((VM.and mcR instr).2) = mcF := by rw [h3]
        rw [← h4, and_pc, hpc]
      · have h2 : some (VM.not mcR instr) = some (Except.ok (), mcF) := hstep
        injection h2 with h3
        have h4 : ((VM.not mcR instr).2) = mcF := by rw [h3]
        rw [← h4, not_pc, hpc]
      · have h2 : some (VM.load mcR instr) = some (Except.ok (), mcF) := hstep
        injection h2 with h3
        have h4 : ((VM.load mcR instr).2) = mcF := by rw [h3]
        rw [← h4, load_pc, hpc]
      · have h2 : some (VM.load_indirect mcR instr) = some (Except.ok (), mcF) := hstep
        injection h2 with h3
        have h4 : ((VM.load_indirect mcR instr).2) = mcF := by rw [h3]
        rw [← h4, load_indirect_pc, hpc]
      · have h2 : some (VM.load_register mcR instr) = some (Except.ok (), mcF) := hstep
        injection h2 with h3
        have h4 : ((VM.load_register mcR instr).2) = mcF := by rw [h3]
        rw [← h4, load_register_pc, hpc]
      · have h2 : some (VM.load_effective_address mcR instr) = some (Except.ok (), mcF) :=
          hstep
        injection h2 with h3
        have h4 : ((VM.load_effective_address mcR instr).2) = mcF := by rw [h3]
        rw [← h4, lea_pc, hpc]
      · have h2 : some (VM.store mcR instr) = some (Except.ok (), mcF) := hstep
        injection h2 with h3
        have h4 : ((VM.store mcR instr).2) = mcF := by rw [h3]
        rw [← h4, store_pc, hpc]
      · have h2 : some (VM.store_indirect mcR instr) = some (Except.ok (), mcF) := hstep
        injection h2 with h3
        have h4 : ((VM.store_indirect mcR instr).2) = mcF := by rw [h3]
        rw [← h4, store_indirect_pc, hpc]
      · have h2 : some (VM.store_register mcR instr) = some (Except.ok (), mcF) := hstep
        injection h2 with h3
        have h4 : ((VM.store_register mcR instr).2) = mcF := by rw [h3]
        rw [← h4, store_register_pc, hpc]

/-- Claim C3 (witness): one step of the machine `M3` (an ADD-immediate
instruction at PC = 0x3000) succeeds and leaves PC = 0x3001. -/
theorem step_pc_increment_witness :
    VM.step 0 M3 = some (.ok (), M3s) ∧ M3s.regs .PC = wadd (M3.regs .PC) 1 :=
  ⟨rfl, step_pc_increment 0 M3 M3s 0x103F .Add rfl rfl (by decide) rfl⟩

/-- Claim C5 (witness): the probe evaluated on the all-zero memory with
the byte 65 available, and with no input available. -/
theorem memory_kbsr_probe_witness :
    Memory.read memZero 0xFE00 [65] =
      (.ok 0x8000, memUpdate (memUpdate memZero 0xFE00 0x8000) 0xFE02 65, []) ∧
    (Memory.read memZero 0xFE00 []).1 = .error (.STDINRead "failed to fill whole buffer") :=
  ⟨memory_kbsr_probe_spec.1 memZero 65 [], memory_kbsr_probe_spec.2 memZero⟩

/-- Claim C10 (witness): the failing probe evaluated on the all-zero
memory. -/
theorem kbsr_failed_probe_mutation_witness :
    (Memory.read memZero 0xFE00 []).1 = .error (.STDINRead "failed to fill whole buffer") ∧
    (Memory.read memZero 0xFE00 []).2.1 = memUpdate memZero 0xFE00 0x8000 ∧
    memUpdate memZero 0xFE00 0x8000 0xFE00 = 0x8000 :=
  kbsr_failed_probe_mutation memZero
